import Mathlib

/-!
Shallow embedding of the Smartfolio repository
(`app/scripts/balance_ratio.py`, `app/scripts/min_beta.py`,
`app/scripts/stats.py`).

Python floats are modelled as rationals (`ℚ`).  An equity record is a
dictionary with keys `beta`, `qty`, `avg_price` and (optionally) `return`;
the optional key becomes an `Option ℚ` field named `ret` (`return` is a
Lean keyword).  Python exceptions are modelled by an error type carried in
`Except`; in particular a Python division by zero raises
`ZeroDivisionError`, and a missing dictionary key raises `KeyError`.
The external `scipy.optimize.linprog` solver is modelled as an explicit
function parameter from an LP problem to a result record carrying a
`status` code and an optional solution vector `x` (the code under
verification never reads `status`).
-/

namespace Smartfolio

/-- One equity record: keys `beta`, `qty`, `avg_price` of the Python dict,
plus the optional key `return` (field `ret`). -/
structure Equity where
  beta : ℚ
  qty : ℚ
  avg_price : ℚ
  ret : Option ℚ
deriving DecidableEq, Repr

/-- Python exception kinds relevant to this code base.  `domainError` and
`optimizationError` are the error classes named by the specification; the
source never defines or raises them, but they are needed to state the
spec's claims. -/
inductive PyError where
  | zeroDivisionError
  | keyError
  | typeError
  | indexError
  | domainError
  | optimizationError
deriving DecidableEq, Repr

/-- The linear program handed to `scipy.optimize.linprog`:
objective vector `c`, equality-constraint rows `A_eq` with right-hand side
`b_eq`, and per-variable bounds (Python `(0, None)` becomes
`(some 0, none)`). -/
structure LinProblem where
  c : List ℚ
  A_eq : List (List ℚ)
  b_eq : List ℚ
  bounds : List (Option ℚ × Option ℚ)
deriving DecidableEq, Repr

/-- The solver's result object (`scipy.optimize.OptimizeResult`): a status
code (0 = optimal, 2 = infeasible, 3 = unbounded) and the solution vector
`x`, which may be absent. -/
structure LinprogResult where
  status : ℕ
  x : Option (List ℚ)
deriving DecidableEq, Repr

/-- A solver for the external `linprog` collaborator. -/
def Solver : Type := LinProblem → LinprogResult

/-- Python 3 `round` to an integer: round half to even (banker's
rounding). -/
def pyRound (q : ℚ) : ℤ :=
  if q - ⌊q⌋ < 1/2 then ⌊q⌋
  else if 1/2 < q - ⌊q⌋ then ⌊q⌋ + 1
  else if ⌊q⌋ % 2 = 0 then ⌊q⌋ else ⌊q⌋ + 1

/-- The write-back loop
`for i, equity in enumerate(equities): equity['qty'] = round(res.x[i])`:
each equity's `qty` is replaced by the rounded solver value at the same
index; indexing past the end of `res.x` raises `IndexError`. -/
def writeBackQty : List Equity → List ℚ → Except PyError (List Equity)
  | [], _ => .ok []
  | _ :: _, [] => .error .indexError
  | e :: es, x :: xs => (writeBackQty es xs).map (fun rest => { e with qty := (pyRound x : ℚ) } :: rest)

/-- `balance_ratio.py`, lines 31-32: the objective coefficients
`c = [-((equity['return'] - risk_free_rate) / (equity['beta'] * (benchmark_return - risk_free_rate))) for equity in equities]`.
A missing `return` key raises `KeyError`; a zero denominator raises
`ZeroDivisionError`; the comprehension evaluates left to right, so the
first offending equity determines the exception. -/
def sharpeObjective (benchmark_return risk_free_rate : ℚ) : List Equity → Except PyError (List ℚ)
  | [] => .ok []
  | e :: es =>
    match e.ret with
    | none => .error .keyError
    | some r =>
      if e.beta * (benchmark_return - risk_free_rate) = 0 then .error .zeroDivisionError
      else (sharpeObjective benchmark_return risk_free_rate es).map
        (fun cs => -((r - risk_free_rate) / (e.beta * (benchmark_return - risk_free_rate))) :: cs)

/-- `balance_ratio.py`, lines 35-39: the equality constraint
`A_eq = [[equity['avg_price'] ...]]`, `b_eq = [sum([equity['avg_price'] * equity['qty'] ...])]`
and the bounds `[(0, None) for _ in equities]`, shared verbatim with
`min_beta.py` lines 33-37. -/
def budgetConstraintRows (es : List Equity) : List (List ℚ) :=
  [es.map (fun e => e.avg_price)]

def budgetConstraintRhs (es : List Equity) : List ℚ :=
  [(es.map (fun e => e.avg_price * e.qty)).sum]

def nonnegBounds (es : List Equity) : List (Option ℚ × Option ℚ) :=
  es.map (fun _ => ((some (0:ℚ)), (none : Option ℚ)))

/-- The LP problem built by `maximize_sharpe_ratio` before the `linprog`
call; `Except` carries the exception raised while building `c`. -/
def sharpeProblem (es : List Equity) (benchmark_return risk_free_rate : ℚ) : Except PyError LinProblem :=
  (sharpeObjective benchmark_return risk_free_rate es).map
    (fun c => { c := c
                A_eq := budgetConstraintRows es
                b_eq := budgetConstraintRhs es
                bounds := nonnegBounds es })

/-- The LP problem built by `minimize_portfolio_beta` (`min_beta.py`
lines 29-37): objective `c = [equity['beta'] for equity in equities]`
with the same constraint and bounds; its construction cannot fail. -/
def minBetaProblem (es : List Equity) : LinProblem :=
  { c := es.map (fun e => e.beta)
    A_eq := budgetConstraintRows es
    b_eq := budgetConstraintRhs es
    bounds := nonnegBounds es }

/-- `maximize_sharpe_ratio(equities, benchmark_return, risk_free_rate)`
from `balance_ratio.py`: build the LP, call the solver, and write the
rounded solution back.  The code never checks `res.status`; if `res.x` is
`None`, the subscript `res.x[i]` raises `TypeError` before any quantity is
written. -/
def maximize_sharpe_ratio (solver : Solver) (es : List Equity) (benchmark_return risk_free_rate : ℚ) : Except PyError (List Equity) :=
  match sharpeProblem es benchmark_return risk_free_rate with
  | .error err => .error err
  | .ok p =>
    match (solver p).x with
    | none => .error .typeError
    | some xs => writeBackQty es xs

/-- `minimize_portfolio_beta(equities)` from `min_beta.py`: same shape,
with the beta objective and no market parameters. -/
def minimize_portfolio_beta (solver : Solver) (es : List Equity) : Except PyError (List Equity) :=
  match (solver (minBetaProblem es)).x with
  | none => .error .typeError
  | some xs => writeBackQty es xs

/-- `stats.py`: `total_investment = sum([equity['qty'] * equity['avg_price'] ...])`. -/
def totalInvestment (es : List Equity) : ℚ :=
  (es.map (fun e => e.qty * e.avg_price)).sum

/-- `stats.py`: `portfolio_beta = sum([(equity['qty'] * equity['avg_price'] / total_investment) * equity['beta'] ...])`. -/
def portfolioBeta (es : List Equity) (total : ℚ) : ℚ :=
  (es.map (fun e => e.qty * e.avg_price / total * e.beta)).sum

/-- The per-equity weights `qty * avg_price / total_investment`. -/
def weights (es : List Equity) (total : ℚ) : List ℚ :=
  es.map (fun e => e.qty * e.avg_price / total)

/-- Fetch every equity's `return` value; a missing key raises `KeyError`. -/
def getRets : List Equity → Except PyError (List ℚ)
  | [] => .ok []
  | e :: es =>
    match e.ret with
    | none => .error .keyError
    | some r => (getRets es).map (fun rs => r :: rs)

/-- `stats.py`: `portfolio_return = sum([(equity['qty'] * equity['avg_price'] / total_investment) * equity['return'] ...])`,
with the `return` values passed separately. -/
def portfolioReturnOf (es : List Equity) (rets : List ℚ) (total : ℚ) : ℚ :=
  (List.zipWith (fun e r => e.qty * e.avg_price / total * r) es rets).sum

/-- `stats.py`: `portfolio_std_dev = sum([(equity['qty'] * equity['avg_price'] / total_investment) * equity['beta'] * (benchmark_return - risk_free_rate) ...])`. -/
def portfolioStdDev (es : List Equity) (total benchmark_return risk_free_rate : ℚ) : ℚ :=
  (es.map (fun e => e.qty * e.avg_price / total * e.beta * (benchmark_return - risk_free_rate))).sum

/-- `calculate_portfolio_metrics(equities, benchmark_return, risk_free_rate)`
from `stats.py`.  Exceptions arise exactly where Python raises them: the
first weight division with `total_investment == 0` (only reached when the
list is non-empty), the first missing `return` key, and the final Sharpe
division when `portfolio_std_dev == 0` (the empty portfolio reaches this
last division with `portfolio_std_dev = 0`). -/
def calculate_portfolio_metrics (es : List Equity) (benchmark_return risk_free_rate : ℚ) : Except PyError (ℚ × ℚ × ℚ) :=
  let total := totalInvestment es
  if total = 0 ∧ es ≠ [] then .error .zeroDivisionError
  else
    match getRets es with
    | .error err => .error err
    | .ok rets =>
      let pb := portfolioBeta es total
      let pr := portfolioReturnOf es rets total
      let pa := pr - risk_free_rate - pb * (benchmark_return - risk_free_rate)
      let sd := portfolioStdDev es total benchmark_return risk_free_rate
      if sd = 0 then .error .zeroDivisionError
      else .ok (pb, pa, (pr - risk_free_rate) / sd)

/-- `expected_return_CAPM(risk_free_rate, beta, market_return)` from
`stats.py`. -/
def expected_return_CAPM (risk_free_rate beta market_return : ℚ) : ℚ :=
  risk_free_rate + beta * (market_return - risk_free_rate)

/-- The two-equity example portfolio from the module docstrings:
`[{'beta': 1.2, 'qty': 100, 'avg_price': 50, 'return': 0.08},
  {'beta': 0.9, 'qty': 150, 'avg_price': 30, 'return': 0.06}]`. -/
def exampleEquities : List Equity :=
  [{ beta := 6/5, qty := 100, avg_price := 50, ret := some (2/25) },
   { beta := 9/10, qty := 150, avg_price := 30, ret := some (3/50) }]

theorem sharpeObjective_eq (br rf : ℚ) (es : List Equity)
    (hr : ∀ e ∈ es, e.ret ≠ none) (hb : ∀ e ∈ es, e.beta ≠ 0) (hbr : br ≠ rf) :
    sharpeObjective br rf es =
      .ok (es.map (fun e => -((e.ret.getD 0 - rf) / (e.beta * (br - rf))))) := by
  induction es with
  | nil => rfl
  | cons e es ih =>
    obtain ⟨r, hre⟩ := Option.ne_none_iff_exists'.mp (hr e (by simp))
    have hbne : e.beta * (br - rf) ≠ 0 :=
      mul_ne_zero (hb e (by simp)) (sub_ne_zero.mpr hbr)
    have ih' := ih (fun x hx => hr x (by simp [hx])) (fun x hx => hb x (by simp [hx]))
    simp [sharpeObjective, hre, hbne, ih', Except.map]

theorem sharpeProblem_eq (es : List Equity) (br rf : ℚ)
    (hr : ∀ e ∈ es, e.ret ≠ none) (hb : ∀ e ∈ es, e.beta ≠ 0) (hbr : br ≠ rf) :
    sharpeProblem es br rf =
      .ok { c := es.map (fun e => -((e.ret.getD 0 - rf) / (e.beta * (br - rf))))
            A_eq := budgetConstraintRows es
            b_eq := budgetConstraintRhs es
            bounds := nonnegBounds es } := by
  rw [sharpeProblem, sharpeObjective_eq br rf es hr hb hbr]
  rfl

theorem nonnegBounds_eq_replicate (es : List Equity) :
    nonnegBounds es = List.replicate es.length ((some (0:ℚ)), (none : Option ℚ)) := by
  simp [nonnegBounds]

/-- C1: with `beta[i] ≠ 0` for all `i`, `benchmark_return ≠ risk_free_rate`,
and every `return` key present, the Sharpe optimizer hands `linprog` the
objective `c[i] = -((return[i] - risk_free_rate) / (beta[i] * (benchmark_return - risk_free_rate)))`,
and the beta optimizer hands it `c[i] = beta[i]`. -/
theorem objective_vector_coefficients (es : List Equity) (br rf : ℚ)
    (hr : ∀ e ∈ es, e.ret ≠ none) (hb : ∀ e ∈ es, e.beta ≠ 0) (hbr : br ≠ rf) :
    (∃ p, sharpeProblem es br rf = .ok p ∧
        p.c = es.map (fun e => -((e.ret.getD 0 - rf) / (e.beta * (br - rf))))) ∧
    (minBetaProblem es).c = es.map (fun e => e.beta) := by
  exact ⟨⟨_, sharpeProblem_eq es br rf hr hb hbr, rfl⟩, rfl⟩

/-- Witness for C1 at the documented two-equity example with
`benchmark_return = 0.07`, `risk_free_rate = 0.02`. -/
theorem objective_vector_coefficients_witness :
    (∃ p, sharpeProblem exampleEquities (7/100) (1/50) = .ok p ∧
        p.c = exampleEquities.map
          (fun e => -((e.ret.getD 0 - 1/50) / (e.beta * (7/100 - 1/50))))) ∧
    (minBetaProblem exampleEquities).c = exampleEquities.map (fun e => e.beta) :=
  objective_vector_coefficients exampleEquities (7/100) (1/50)
    (by simp [exampleEquities]) (by norm_num [exampleEquities]) (by norm_num)

/-- C2: both optimizers pass `linprog` exactly one equality constraint, with
row `avg_price[i]`, right-hand side `Σ avg_price[i] * qty[i]` over the input
quantities, and bounds `[0, +∞)` for every variable. -/
theorem constraint_and_bounds (es : List Equity) (br rf : ℚ)
    (hr : ∀ e ∈ es, e.ret ≠ none) (hb : ∀ e ∈ es, e.beta ≠ 0) (hbr : br ≠ rf) :
    (∃ p, sharpeProblem es br rf = .ok p ∧
        p.A_eq = [es.map (fun e => e.avg_price)] ∧
        p.b_eq = [(es.map (fun e => e.avg_price * e.qty)).sum] ∧
        p.bounds = List.replicate es.length ((some (0:ℚ)), (none : Option ℚ))) ∧
    (minBetaProblem es).A_eq = [es.map (fun e => e.avg_price)] ∧
    (minBetaProblem es).b_eq = [(es.map (fun e => e.avg_price * e.qty)).sum] ∧
    (minBetaProblem es).bounds = List.replicate es.length ((some (0:ℚ)), (none : Option ℚ)) := by
  refine ⟨⟨_, sharpeProblem_eq es br rf hr hb hbr, rfl, rfl, nonnegBounds_eq_replicate es⟩,
    rfl, rfl, nonnegBounds_eq_replicate es⟩

/-- Witness for C2 at the documented two-equity example. -/
theorem constraint_and_bounds_witness :
    (∃ p, sharpeProblem exampleEquities (7/100) (1/50) = .ok p ∧
        p.A_eq = [exampleEquities.map (fun e => e.avg_price)] ∧
        p.b_eq = [(exampleEquities.map (fun e => e.avg_price * e.qty)).sum] ∧
        p.bounds = List.replicate exampleEquities.length ((some (0:ℚ)), (none : Option ℚ))) ∧
    (minBetaProblem exampleEquities).A_eq = [exampleEquities.map (fun e => e.avg_price)] ∧
    (minBetaProblem exampleEquities).b_eq = [(exampleEquities.map (fun e => e.avg_price * e.qty)).sum] ∧
    (minBetaProblem exampleEquities).bounds =
      List.replicate exampleEquities.length ((some (0:ℚ)), (none : Option ℚ)) :=
  constraint_and_bounds exampleEquities (7/100) (1/50)
    (by simp [exampleEquities]) (by norm_num [exampleEquities]) (by norm_num)

theorem portfolioStdDev_eq_beta_mul (es : List Equity) (total br rf : ℚ) :
    portfolioStdDev es total br rf = portfolioBeta es total * (br - rf) := by
  unfold portfolioStdDev portfolioBeta
  exact List.sum_map_mul_right es (fun e => e.qty * e.avg_price / total * e.beta) (br - rf)

theorem weights_sum_of_ne_zero (es : List Equity) (h : totalInvestment es ≠ 0) :
    (weights es (totalInvestment es)).sum = 1 := by
  have hsum : (weights es (totalInvestment es)).sum
      = (es.map fun e => e.qty * e.avg_price).sum * (totalInvestment es)⁻¹ := by
    unfold weights
    simp only [div_eq_mul_inv]
    exact List.sum_map_mul_right es (fun e => e.qty * e.avg_price) (totalInvestment es)⁻¹
  rw [hsum]
  rw [show (es.map fun e => e.qty * e.avg_price).sum = totalInvestment es from rfl]
  exact mul_inv_cancel₀ h

/-- C4: on the documented two-equity portfolio with `benchmark_return = 0.07`
and `risk_free_rate = 0.02`, `calculate_portfolio_metrics` returns
`portfolio_beta = (5000*1.2 + 4500*0.9)/9500` together with alpha and sharpe
derived from that beta and `portfolio_return = (5000*0.08 + 4500*0.06)/9500`
via the CAPM formulas. -/
theorem metrics_concrete_scenario :
    calculate_portfolio_metrics exampleEquities (7/100) (1/50) =
      .ok ((5000 * (6/5) + 4500 * (9/10)) / 9500,
           (5000 * (2/25) + 4500 * (3/50)) / 9500 - 1/50
             - ((5000 * (6/5) + 4500 * (9/10)) / 9500) * (7/100 - 1/50),
           ((5000 * (2/25) + 4500 * (3/50)) / 9500 - 1/50)
             / (((5000 * (6/5) + 4500 * (9/10)) / 9500) * (7/100 - 1/50))) := by
  norm_num [calculate_portfolio_metrics, totalInvestment, portfolioBeta,
    portfolioReturnOf, portfolioStdDev, getRets, exampleEquities, Except.map]

/-- C5: for every portfolio with nonzero total investment, the Sharpe
denominator `Σ weight[i] * beta[i] * (benchmark_return - risk_free_rate)`
equals `portfolio_beta * (benchmark_return - risk_free_rate)`, where
`portfolio_beta` is the first component `calculate_portfolio_metrics`
returns. -/
theorem sharpe_denominator_eq_beta_excess (es : List Equity) (br rf : ℚ)
    (h : totalInvestment es ≠ 0) :
    portfolioStdDev es (totalInvestment es) br rf
      = portfolioBeta es (totalInvestment es) * (br - rf) ∧
    ∀ pb pa sr, calculate_portfolio_metrics es br rf = .ok (pb, pa, sr) →
      pb = portfolioBeta es (totalInvestment es) := by
  refine ⟨portfolioStdDev_eq_beta_mul es (totalInvestment es) br rf, ?_⟩
  intro pb pa sr hok
  unfold calculate_portfolio_metrics at hok
  rw [if_neg (by simp [h])] at hok
  cases hg : getRets es with
  | error err => rw [hg] at hok; exact absurd hok (by simp)
  | ok rets =>
    rw [hg] at hok
    dsimp only at hok
    by_cases hsd : portfolioStdDev es (totalInvestment es) br rf = 0
    · rw [if_pos hsd] at hok; exact absurd hok (by simp)
    · rw [if_neg hsd] at hok
      have := Except.ok.inj hok
      exact (congrArg Prod.fst this).symm

/-- Witness for C5 at the documented two-equity example. -/
theorem sharpe_denominator_eq_beta_excess_witness :
    portfolioStdDev exampleEquities (totalInvestment exampleEquities) (7/100) (1/50)
      = portfolioBeta exampleEquities (totalInvestment exampleEquities) * (7/100 - 1/50) ∧
    ∀ pb pa sr,
      calculate_portfolio_metrics exampleEquities (7/100) (1/50) = .ok (pb, pa, sr) →
      pb = portfolioBeta exampleEquities (totalInvestment exampleEquities) :=
  sharpe_denominator_eq_beta_excess exampleEquities (7/100) (1/50)
    (by norm_num [totalInvestment, exampleEquities])

/-- Counterexample to C7 as stated: on a one-equity portfolio with
`qty = 0` the total investment is zero and `calculate_portfolio_metrics`
raises Python's `ZeroDivisionError`, not the `DomainError` the claim
names. -/
theorem zero_investment_not_domainError :
    calculate_portfolio_metrics
        [{ beta := 1, qty := 0, avg_price := 10, ret := some (1/10) }] (7/100) (1/50)
      = .error .zeroDivisionError ∧
    calculate_portfolio_metrics
        [{ beta := 1, qty := 0, avg_price := 10, ret := some (1/10) }] (7/100) (1/50)
      ≠ .error .domainError := by
  have h1 : calculate_portfolio_metrics
      [{ beta := 1, qty := 0, avg_price := 10, ret := some (1/10) }] (7/100) (1/50)
      = .error .zeroDivisionError := by
    norm_num [calculate_portfolio_metrics, totalInvestment]
  refine ⟨h1, ?_⟩
  rw [h1]
  intro hcontra
  exact PyError.noConfusion (Except.error.inj hcontra)

/-- C7 amended: with zero total investment `calculate_portfolio_metrics`
fails with `ZeroDivisionError` (the code defines no `DomainError`); with
nonzero total investment the weights `qty[i] * avg_price[i] / total`
sum to 1. -/
theorem zero_investment_behaviour (es : List Equity) (br rf : ℚ) :
    (totalInvestment es = 0 →
      calculate_portfolio_metrics es br rf = .error .zeroDivisionError) ∧
    (totalInvestment es ≠ 0 → (weights es (totalInvestment es)).sum = 1) := by
  constructor
  · intro h0
    rcases eq_or_ne es [] with rfl | hne
    · simp [calculate_portfolio_metrics, totalInvestment, getRets, portfolioStdDev]
    · unfold calculate_portfolio_metrics
      rw [if_pos (by exact ⟨h0, hne⟩)]
  · exact weights_sum_of_ne_zero es

/-- Witness for the amended C7: the zero-investment branch at a concrete
one-equity portfolio and the weight-normalization branch at the documented
two-equity example. -/
theorem zero_investment_behaviour_witness :
    (totalInvestment [{ beta := 1, qty := 0, avg_price := 10, ret := some (1/10) }] = 0 →
      calculate_portfolio_metrics
          [{ beta := 1, qty := 0, avg_price := 10, ret := some (1/10) }] (7/100) (1/50)
        = .error .zeroDivisionError) ∧
    (totalInvestment [{ beta := 1, qty := 0, avg_price := 10, ret := some (1/10) }] ≠ 0 →
      (weights [{ beta := 1, qty := 0, avg_price := 10, ret := some (1/10) }]
        (totalInvestment [{ beta := 1, qty := 0, avg_price := 10, ret := some (1/10) }])).sum = 1) :=
  zero_investment_behaviour
    [{ beta := 1, qty := 0, avg_price := 10, ret := some (1/10) }] (7/100) (1/50)

/-- Total portfolio market value `Σ avg_price[i] * qty[i]`, the quantity the
budget constraint conserves (`budgetConstraintRhs es = [portfolioValue es]`). -/
def portfolioValue (es : List Equity) : ℚ :=
  (es.map (fun e => e.avg_price * e.qty)).sum

/-- The constraint row applied to a solver vector:
`Σ avg_price[i] * x[i]` over the common length. -/
def dotPrices (es : List Equity) (xs : List ℚ) : ℚ :=
  (List.zipWith (fun e x => e.avg_price * x) es xs).sum

/-- The largest `avg_price` in the portfolio (0 for the empty portfolio). -/
def maxPrice (es : List Equity) : ℚ :=
  (es.map (fun e => e.avg_price)).foldr max 0

theorem maxPrice_nonneg (es : List Equity) : 0 ≤ maxPrice es := by
  induction es with
  | nil => exact le_refl 0
  | cons e es ih => exact le_trans ih (le_max_right _ _)

theorem le_maxPrice (es : List Equity) (e : Equity) (he : e ∈ es) :
    e.avg_price ≤ maxPrice es := by
  induction es with
  | nil => simp at he
  | cons a es ih =>
    rcases List.mem_cons.mp he with rfl | hmem
    · exact le_max_left _ _
    · exact le_trans (ih hmem) (le_max_right _ _)

theorem abs_pyRound_sub (q : ℚ) : |(pyRound q : ℚ) - q| ≤ 1/2 := by
  have hf : (⌊q⌋ : ℚ) ≤ q := Int.floor_le q
  have hf1 : q < ⌊q⌋ + 1 := Int.lt_floor_add_one q
  rw [abs_le]
  unfold pyRound
  split
  · constructor <;> linarith
  · split
    · constructor <;> push_cast <;> linarith
    · split
      · constructor <;> linarith
      · constructor <;> push_cast <;> linarith

theorem writeBackQty_ok (es : List Equity) (xs : List ℚ) (hlen : es.length ≤ xs.length) :
    writeBackQty es xs =
      .ok (List.zipWith (fun e x => { e with qty := (pyRound x : ℚ) }) es xs) := by
  induction es generalizing xs with
  | nil => cases xs <;> rfl
  | cons e es ih =>
    cases xs with
    | nil => simp at hlen
    | cons x xs =>
      have hlen' : es.length ≤ xs.length := by simpa using hlen
      simp [writeBackQty, ih xs hlen', Except.map]

theorem value_after_round_bound (es : List Equity) (xs : List ℚ) (M : ℚ)
    (hlen : es.length ≤ xs.length)
    (hM : ∀ e ∈ es, 0 ≤ e.avg_price ∧ e.avg_price ≤ M) :
    |portfolioValue (List.zipWith (fun e x => { e with qty := (pyRound x : ℚ) }) es xs)
      - dotPrices es xs| ≤ (es.length : ℚ) * M / 2 := by
  induction es generalizing xs with
  | nil => simp [portfolioValue, dotPrices]
  | cons e es ih =>
    cases xs with
    | nil => simp at hlen
    | cons x xs =>
      have hMe := hM e (by simp)
      have hM' : ∀ a ∈ es, 0 ≤ a.avg_price ∧ a.avg_price ≤ M :=
        fun a ha => hM a (by simp [ha])
      have hlen' : es.length ≤ xs.length := by simpa using hlen
      have hrec := ih xs hlen' hM'
      have hterm : |e.avg_price * (pyRound x : ℚ) - e.avg_price * x| ≤ M / 2 := by
        rw [← mul_sub, abs_mul, abs_of_nonneg hMe.1]
        calc e.avg_price * |(pyRound x : ℚ) - x|
            ≤ M * (1/2) :=
              mul_le_mul hMe.2 (abs_pyRound_sub x) (abs_nonneg _) (le_trans hMe.1 hMe.2)
          _ = M / 2 := by ring
      have expand1 : portfolioValue
          (List.zipWith (fun e x => { e with qty := (pyRound x : ℚ) }) (e :: es) (x :: xs))
          = e.avg_price * (pyRound x : ℚ)
            + portfolioValue (List.zipWith (fun e x => { e with qty := (pyRound x : ℚ) }) es xs) := by
        simp [portfolioValue]
      have expand2 : dotPrices (e :: es) (x :: xs) = e.avg_price * x + dotPrices es xs := by
        simp [dotPrices]
      rw [expand1, expand2]
      have habs : |e.avg_price * (pyRound x : ℚ)
            + portfolioValue (List.zipWith (fun e x => { e with qty := (pyRound x : ℚ) }) es xs)
            - (e.avg_price * x + dotPrices es xs)|
          ≤ |e.avg_price * (pyRound x : ℚ) - e.avg_price * x|
            + |portfolioValue (List.zipWith (fun e x => { e with qty := (pyRound x : ℚ) }) es xs)
                - dotPrices es xs| := by
        have := abs_add (e.avg_price * (pyRound x : ℚ) - e.avg_price * x)
          (portfolioValue (List.zipWith (fun e x => { e with qty := (pyRound x : ℚ) }) es xs)
            - dotPrices es xs)
        calc |e.avg_price * (pyRound x : ℚ)
              + portfolioValue (List.zipWith (fun e x => { e with qty := (pyRound x : ℚ) }) es xs)
              - (e.avg_price * x + dotPrices es xs)|
            = |(e.avg_price * (pyRound x : ℚ) - e.avg_price * x)
              + (portfolioValue (List.zipWith (fun e x => { e with qty := (pyRound x : ℚ) }) es xs)
                - dotPrices es xs)| := by ring_nf
          _ ≤ _ := this
      have hlen1 : ((e :: es).length : ℚ) = (es.length : ℚ) + 1 := by
        simp [List.length_cons]
      calc |e.avg_price * (pyRound x : ℚ)
            + portfolioValue (List.zipWith (fun e x => { e with qty := (pyRound x : ℚ) }) es xs)
            - (e.avg_price * x + dotPrices es xs)|
          ≤ |e.avg_price * (pyRound x : ℚ) - e.avg_price * x|
            + |portfolioValue (List.zipWith (fun e x => { e with qty := (pyRound x : ℚ) }) es xs)
                - dotPrices es xs| := habs
        _ ≤ M / 2 + (es.length : ℚ) * M / 2 := add_le_add hterm hrec
        _ = ((es.length : ℚ) + 1) * M / 2 := by ring
        _ = ((e :: es).length : ℚ) * M / 2 := by rw [hlen1]

/-- C3: whenever the solver returns vectors that satisfy the budget
equality constraint (and prices are positive, per the data-model
invariant), both optimizers succeed, the total value computed from the
rounded post-optimization quantities differs from the pre-optimization
value by at most `0.5 * max(avg_price) * n`, and the unrounded solver
solutions conserve the value exactly. -/
theorem value_conservation (solver : Solver) (es : List Equity) (br rf : ℚ)
    (p : LinProblem) (xs ys : List ℚ)
    (hp : sharpeProblem es br rf = .ok p)
    (hxs : (solver p).x = some xs) (hxlen : xs.length = es.length)
    (hxcon : dotPrices es xs = portfolioValue es)
    (hys : (solver (minBetaProblem es)).x = some ys) (hylen : ys.length = es.length)
    (hycon : dotPrices es ys = portfolioValue es)
    (hprice : ∀ e ∈ es, 0 < e.avg_price) :
    (∃ es1, maximize_sharpe_ratio solver es br rf = .ok es1 ∧
        |portfolioValue es1 - portfolioValue es| ≤ 1/2 * maxPrice es * (es.length : ℚ)) ∧
    (∃ es2, minimize_portfolio_beta solver es = .ok es2 ∧
        |portfolioValue es2 - portfolioValue es| ≤ 1/2 * maxPrice es * (es.length : ℚ)) ∧
    dotPrices es xs = portfolioValue es ∧ dotPrices es ys = portfolioValue es := by
  have hM : ∀ e ∈ es, 0 ≤ e.avg_price ∧ e.avg_price ≤ maxPrice es :=
    fun e he => ⟨le_of_lt (hprice e he), le_maxPrice es e he⟩
  have hshar : maximize_sharpe_ratio solver es br rf =
      .ok (List.zipWith (fun e x => { e with qty := (pyRound x : ℚ) }) es xs) := by
    unfold maximize_sharpe_ratio
    rw [hp]
    dsimp only
    rw [hxs]
    exact writeBackQty_ok es xs (by rw [hxlen])
  have hmin : minimize_portfolio_beta solver es =
      .ok (List.zipWith (fun e x => { e with qty := (pyRound x : ℚ) }) es ys) := by
    unfold minimize_portfolio_beta
    rw [hys]
    exact writeBackQty_ok es ys (by rw [hylen])
  have hb1 := value_after_round_bound es xs (maxPrice es) (by rw [hxlen]) hM
  have hb2 := value_after_round_bound es ys (maxPrice es) (by rw [hylen]) hM
  rw [hxcon] at hb1
  rw [hycon] at hb2
  have hring : (es.length : ℚ) * maxPrice es / 2 = 1/2 * maxPrice es * (es.length : ℚ) := by
    ring
  rw [hring] at hb1 hb2
  exact ⟨⟨_, hshar, hb1⟩, ⟨_, hmin, hb2⟩, hxcon, hycon⟩

/-- The example solver used by witnesses: ignores the problem and returns
the status/vector it was built with. -/
def constSolver (st : ℕ) (sol : Option (List ℚ)) : Solver :=
  fun _ => { status := st, x := sol }

/-- Witness for C3 at the documented two-equity example, with a solver
returning the original quantity vector (which satisfies the budget
constraint). -/
theorem value_conservation_witness :
    (∃ es1, maximize_sharpe_ratio (constSolver 0 (some [100, 150]))
          exampleEquities (7/100) (1/50) = .ok es1 ∧
        |portfolioValue es1 - portfolioValue exampleEquities|
          ≤ 1/2 * maxPrice exampleEquities * (exampleEquities.length : ℚ)) ∧
    (∃ es2, minimize_portfolio_beta (constSolver 0 (some [100, 150]))
          exampleEquities = .ok es2 ∧
        |portfolioValue es2 - portfolioValue exampleEquities|
          ≤ 1/2 * maxPrice exampleEquities * (exampleEquities.length : ℚ)) ∧
    dotPrices exampleEquities [100, 150] = portfolioValue exampleEquities ∧
    dotPrices exampleEquities [100, 150] = portfolioValue exampleEquities :=
  value_conservation (constSolver 0 (some [100, 150])) exampleEquities (7/100) (1/50)
    { c := [-1, -(8/9)]
      A_eq := [[50, 30]]
      b_eq := [9500]
      bounds := [((some (0:ℚ)), (none : Option ℚ)), ((some (0:ℚ)), (none : Option ℚ))] }
    [100, 150] [100, 150]
    (by norm_num [sharpeProblem, sharpeObjective, budgetConstraintRows,
      budgetConstraintRhs, nonnegBounds, exampleEquities, Except.map])
    rfl (by norm_num [exampleEquities]) (by norm_num [dotPrices, portfolioValue, exampleEquities])
    rfl (by norm_num [exampleEquities]) (by norm_num [dotPrices, portfolioValue, exampleEquities])
    (by norm_num [exampleEquities])

/-- C9: on a single-equity portfolio with positive price, the budget
constraint pins the solver's solution to the original quantity, so both
optimizers return `qty_after[0] = round(qty_before[0])` and change nothing
else. -/
theorem single_equity_noop (solver : Solver) (e : Equity) (br rf : ℚ)
    (p : LinProblem) (x y : ℚ)
    (hprice : 0 < e.avg_price)
    (hp : sharpeProblem [e] br rf = .ok p)
    (hx : (solver p).x = some [x])
    (hxcon : dotPrices [e] [x] = portfolioValue [e])
    (hy : (solver (minBetaProblem [e])).x = some [y])
    (hycon : dotPrices [e] [y] = portfolioValue [e]) :
    maximize_sharpe_ratio solver [e] br rf = .ok [{ e with qty := (pyRound e.qty : ℚ) }] ∧
    minimize_portfolio_beta solver [e] = .ok [{ e with qty := (pyRound e.qty : ℚ) }] := by
  have hxq : x = e.qty := by
    have h1 : e.avg_price * x = e.avg_price * e.qty := by
      simpa [dotPrices, portfolioValue] using hxcon
    exact mul_left_cancel₀ (ne_of_gt hprice) h1
  have hyq : y = e.qty := by
    have h1 : e.avg_price * y = e.avg_price * e.qty := by
      simpa [dotPrices, portfolioValue] using hycon
    exact mul_left_cancel₀ (ne_of_gt hprice) h1
  subst hxq hyq
  constructor
  · unfold maximize_sharpe_ratio
    rw [hp]
    dsimp only
    rw [hx]
    simp [writeBackQty, Except.map]
  · unfold minimize_portfolio_beta
    rw [hy]
    simp [writeBackQty, Except.map]

/-- Witness for C9: a single equity with `beta = 1`, `qty = 3`,
`avg_price = 2`, `return = 0.1`, market parameters `0.07` and `0.02`, and a
solver returning the unique feasible vector `[3]`. -/
theorem single_equity_noop_witness :
    maximize_sharpe_ratio (constSolver 0 (some [3]))
        [{ beta := 1, qty := 3, avg_price := 2, ret := some (1/10) }] (7/100) (1/50)
      = .ok [{ beta := 1, qty := (pyRound 3 : ℚ), avg_price := 2, ret := some (1/10) }] ∧
    minimize_portfolio_beta (constSolver 0 (some [3]))
        [{ beta := 1, qty := 3, avg_price := 2, ret := some (1/10) }]
      = .ok [{ beta := 1, qty := (pyRound 3 : ℚ), avg_price := 2, ret := some (1/10) }] :=
  single_equity_noop (constSolver 0 (some [3]))
    { beta := 1, qty := 3, avg_price := 2, ret := some (1/10) } (7/100) (1/50)
    { c := [-(8/5)]
      A_eq := [[2]]
      b_eq := [6]
      bounds := [((some (0:ℚ)), (none : Option ℚ))] }
    3 3
    (by norm_num)
    (by norm_num [sharpeProblem, sharpeObjective, budgetConstraintRows,
      budgetConstraintRhs, nonnegBounds, Except.map])
    rfl (by norm_num [dotPrices, portfolioValue])
    rfl (by norm_num [dotPrices, portfolioValue])

theorem sharpeObjective_zero_denom (br rf : ℚ) (es : List Equity)
    (hr : ∀ e ∈ es, e.ret ≠ none)
    (hz : ∃ e ∈ es, e.beta * (br - rf) = 0) :
    sharpeObjective br rf es = .error .zeroDivisionError := by
  induction es with
  | nil => simp at hz
  | cons e es ih =>
    obtain ⟨r, hre⟩ := Option.ne_none_iff_exists'.mp (hr e (by simp))
    by_cases h0 : e.beta * (br - rf) = 0
    · simp [sharpeObjective, hre, h0]
    · obtain ⟨a, ha, ha0⟩ := hz
      rcases List.mem_cons.mp ha with rfl | hmem
      · exact absurd ha0 h0
      · have htail := ih (fun x hx => hr x (by simp [hx])) ⟨a, hmem, ha0⟩
        simp [sharpeObjective, hre, h0, htail, Except.map]

/-- Counterexample to C6 as stated: with a zero-beta equity the Sharpe
optimizer raises Python's `ZeroDivisionError` while building the objective
— it does not raise the `DomainError` the claim names (no such class
exists in the code). -/
theorem zero_beta_not_domainError :
    maximize_sharpe_ratio (constSolver 0 (some [1]))
        [{ beta := 0, qty := 1, avg_price := 10, ret := some (1/10) }] (7/100) (1/50)
      = .error .zeroDivisionError ∧
    maximize_sharpe_ratio (constSolver 0 (some [1]))
        [{ beta := 0, qty := 1, avg_price := 10, ret := some (1/10) }] (7/100) (1/50)
      ≠ .error .domainError := by
  have h1 : maximize_sharpe_ratio (constSolver 0 (some [1]))
      [{ beta := 0, qty := 1, avg_price := 10, ret := some (1/10) }] (7/100) (1/50)
      = .error .zeroDivisionError := by
    norm_num [maximize_sharpe_ratio, sharpeProblem, sharpeObjective, Except.map]
  refine ⟨h1, ?_⟩
  rw [h1]
  intro hcontra
  exact PyError.noConfusion (Except.error.inj hcontra)

/-- C6 amended: for every non-empty portfolio whose `return` keys are all
present, if some equity has `beta = 0` or `benchmark_return =
risk_free_rate`, then `maximize_sharpe_ratio` raises `ZeroDivisionError`
— identically for every solver, hence before `linprog` is invoked — and
never returns a numeric result. -/
theorem zero_beta_raises_before_solver (solver : Solver) (es : List Equity) (br rf : ℚ)
    (hr : ∀ e ∈ es, e.ret ≠ none)
    (hz : (∃ e ∈ es, e.beta = 0) ∨ (br = rf ∧ es ≠ [])) :
    maximize_sharpe_ratio solver es br rf = .error .zeroDivisionError := by
  have hzd : ∃ e ∈ es, e.beta * (br - rf) = 0 := by
    rcases hz with ⟨e, he, hb⟩ | ⟨heq, hne⟩
    · exact ⟨e, he, by rw [hb, zero_mul]⟩
    · rcases es with _ | ⟨e, es⟩
      · exact absurd rfl hne
      · exact ⟨e, by simp, by rw [heq, sub_self, mul_zero]⟩
  have hobj := sharpeObjective_zero_denom br rf es hr hzd
  unfold maximize_sharpe_ratio sharpeProblem
  rw [hobj]
  rfl

/-- Witness for the amended C6: a one-equity portfolio with `beta = 0` and
a solver that would return a vector if consulted. -/
theorem zero_beta_raises_before_solver_witness :
    maximize_sharpe_ratio (constSolver 0 (some [2]))
        [{ beta := 0, qty := 2, avg_price := 5, ret := some (1/20) }] (7/100) (1/50)
      = .error .zeroDivisionError :=
  zero_beta_raises_before_solver (constSolver 0 (some [2]))
    [{ beta := 0, qty := 2, avg_price := 5, ret := some (1/20) }] (7/100) (1/50)
    (by simp)
    (Or.inl ⟨{ beta := 0, qty := 2, avg_price := 5, ret := some (1/20) }, by simp, rfl⟩)

theorem pyRound_intCast (n : ℤ) : pyRound (n : ℚ) = n := by
  unfold pyRound
  rw [Int.floor_intCast]
  norm_num

/-- Counterexample to C8 as stated: a solver reporting infeasibility
(status 2) whose result still carries a vector, as scipy's legacy
`simplex` method does.  `minimize_portfolio_beta` raises no
`OptimizationError`: it returns a portfolio rebuilt from the reported
vector, changing the first quantity from 100 to 0. -/
theorem solver_failure_not_optimizationError :
    (constSolver 2 (some [0, 0]) (minBetaProblem exampleEquities)).status = 2 ∧
    minimize_portfolio_beta (constSolver 2 (some [0, 0])) exampleEquities
      = .ok [{ beta := 6/5, qty := 0, avg_price := 50, ret := some (2/25) },
             { beta := 9/10, qty := 0, avg_price := 30, ret := some (3/50) }] ∧
    minimize_portfolio_beta (constSolver 2 (some [0, 0])) exampleEquities
      ≠ .error .optimizationError ∧
    (0 : ℚ) ≠ 100 := by
  have h0 : pyRound 0 = 0 := pyRound_intCast 0
  have h1 : minimize_portfolio_beta (constSolver 2 (some [0, 0])) exampleEquities
      = .ok [{ beta := 6/5, qty := 0, avg_price := 50, ret := some (2/25) },
             { beta := 9/10, qty := 0, avg_price := 30, ret := some (3/50) }] := by
    simp [minimize_portfolio_beta, constSolver, writeBackQty, Except.map,
      exampleEquities, h0]
  refine ⟨rfl, h1, ?_, by norm_num⟩
  rw [h1]
  intro hcontra
  exact Except.noConfusion hcontra

/-- C8 amended: neither optimizer inspects the solver's status.  When the
failure result carries no vector, both raise `TypeError` (no quantity is
written); when it carries one, both overwrite the quantities with the
rounded vector regardless of the reported status.  No `OptimizationError`
exists in the code. -/
theorem solver_status_never_checked (s1 s2 : Solver) (es : List Equity) (br rf : ℚ)
    (p : LinProblem) (xs : List ℚ)
    (hp : sharpeProblem es br rf = .ok p)
    (h1m : (s1 (minBetaProblem es)).x = none)
    (h1s : (s1 p).x = none)
    (h2m : (s2 (minBetaProblem es)).x = some xs)
    (h2s : (s2 p).x = some xs)
    (hlen : es.length ≤ xs.length) :
    minimize_portfolio_beta s1 es = .error .typeError ∧
    maximize_sharpe_ratio s1 es br rf = .error .typeError ∧
    minimize_portfolio_beta s2 es
      = .ok (List.zipWith (fun e x => { e with qty := (pyRound x : ℚ) }) es xs) ∧
    maximize_sharpe_ratio s2 es br rf
      = .ok (List.zipWith (fun e x => { e with qty := (pyRound x : ℚ) }) es xs) := by
  refine ⟨?_, ?_, ?_, ?_⟩
  · unfold minimize_portfolio_beta
    rw [h1m]
  · unfold maximize_sharpe_ratio
    rw [hp]
    dsimp only
    rw [h1s]
  · unfold minimize_portfolio_beta
    rw [h2m]
    exact writeBackQty_ok es xs hlen
  · unfold maximize_sharpe_ratio
    rw [hp]
    dsimp only
    rw [h2s]
    exact writeBackQty_ok es xs hlen

/-- Witness for the amended C8 at the documented two-equity example, with
one solver returning no vector and one returning `[0, 0]` under a failure
status. -/
theorem solver_status_never_checked_witness :
    minimize_portfolio_beta (constSolver 2 none) exampleEquities = .error .typeError ∧
    maximize_sharpe_ratio (constSolver 2 none) exampleEquities (7/100) (1/50)
      = .error .typeError ∧
    minimize_portfolio_beta (constSolver 2 (some [0, 0])) exampleEquities
      = .ok (List.zipWith (fun e x => { e with qty := (pyRound x : ℚ) })
          exampleEquities [0, 0]) ∧
    maximize_sharpe_ratio (constSolver 2 (some [0, 0])) exampleEquities (7/100) (1/50)
      = .ok (List.zipWith (fun e x => { e with qty := (pyRound x : ℚ) })
          exampleEquities [0, 0]) :=
  solver_status_never_checked (constSolver 2 none) (constSolver 2 (some [0, 0]))
    exampleEquities (7/100) (1/50)
    { c := [-1, -(8/9)]
      A_eq := [[50, 30]]
      b_eq := [9500]
      bounds := [((some (0:ℚ)), (none : Option ℚ)), ((some (0:ℚ)), (none : Option ℚ))] }
    [0, 0]
    (by norm_num [sharpeProblem, sharpeObjective, budgetConstraintRows,
      budgetConstraintRhs, nonnegBounds, exampleEquities, Except.map])
    rfl rfl rfl rfl (by norm_num [exampleEquities])

theorem minBetaProblem_congr (es1 es2 : List Equity)
    (h : List.Forall₂
      (fun a b => a.beta = b.beta ∧ a.qty = b.qty ∧ a.avg_price = b.avg_price) es1 es2) :
    minBetaProblem es1 = minBetaProblem es2 := by
  have hb : es1.map (fun e => e.beta) = es2.map (fun e => e.beta) := by
    induction h with
    | nil => rfl
    | cons hab ht ih => simp [hab.1, ih]
  have hpr : es1.map (fun e => e.avg_price) = es2.map (fun e => e.avg_price) := by
    clear hb
    induction h with
    | nil => rfl
    | cons hab ht ih => simp [hab.2.2, ih]
  have hv : es1.map (fun e => e.avg_price * e.qty)
      = es2.map (fun e => e.avg_price * e.qty) := by
    clear hb hpr
    induction h with
    | nil => rfl
    | cons hab ht ih => simp [hab.2.1, hab.2.2, ih]
  have hl : es1.length = es2.length := List.Forall₂.length_eq h
  simp [minBetaProblem, budgetConstraintRows, budgetConstraintRhs,
    nonnegBounds_eq_replicate, hb, hpr, hv, hl]

theorem writeBackQty_qty_congr (es1 es2 : List Equity)
    (h : List.Forall₂
      (fun a b => a.beta = b.beta ∧ a.qty = b.qty ∧ a.avg_price = b.avg_price) es1 es2) :
    ∀ xs : List ℚ, (writeBackQty es1 xs).map (List.map (fun e => e.qty))
      = (writeBackQty es2 xs).map (List.map (fun e => e.qty)) := by
  induction h with
  | nil => intro xs; rfl
  | @cons a b l1 l2 hab ht ih =>
    intro xs
    cases xs with
    | nil => rfl
    | cons x xs =>
      have hih := ih xs
      cases h1 : writeBackQty l1 xs with
      | error e1 =>
        have h2 : writeBackQty l2 xs = .error e1 := by
          rw [h1] at hih
          cases h2c : writeBackQty l2 xs with
          | error e2 =>
            rw [h2c] at hih
            simp [Except.map] at hih
            rw [hih]
          | ok l => rw [h2c] at hih; simp [Except.map] at hih
        simp [writeBackQty, h1, h2, Except.map]
      | ok l1g =>
        rw [h1] at hih
        cases h2 : writeBackQty l2 xs with
        | error e2 => rw [h2] at hih; simp [Except.map] at hih
        | ok l2g =>
          rw [h2] at hih
          simp [Except.map] at hih
          simp [writeBackQty, h1, h2, Except.map, hih]

/-- C10: `minimize_portfolio_beta` never reads the equities' `return`
values: for any two portfolios agreeing pairwise on `beta`, `qty` and
`avg_price` (with `return` present, absent or arbitrary), it produces
identical post-optimization quantities under every solver. -/
theorem minBeta_ignores_returns (solver : Solver) (es1 es2 : List Equity)
    (h : List.Forall₂
      (fun a b => a.beta = b.beta ∧ a.qty = b.qty ∧ a.avg_price = b.avg_price) es1 es2) :
    (minimize_portfolio_beta solver es1).map (List.map (fun e => e.qty))
      = (minimize_portfolio_beta solver es2).map (List.map (fun e => e.qty)) := by
  have hprob := minBetaProblem_congr es1 es2 h
  unfold minimize_portfolio_beta
  rw [hprob]
  cases hx : (solver (minBetaProblem es2)).x with
  | none => rfl
  | some xs => exact writeBackQty_qty_congr es1 es2 h xs

/-- The documented example portfolio with its `return` values removed or
replaced. -/
def exampleEquitiesOtherRet : List Equity :=
  [{ beta := 6/5, qty := 100, avg_price := 50, ret := none },
   { beta := 9/10, qty := 150, avg_price := 30, ret := some (1/2) }]

/-- Witness for C10: the documented example portfolio and a copy with the
`return` values removed or changed, under a concrete solver. -/
theorem minBeta_ignores_returns_witness :
    (minimize_portfolio_beta (constSolver 0 (some [10, 20]))
        exampleEquities).map (List.map (fun e => e.qty))
      = (minimize_portfolio_beta (constSolver 0 (some [10, 20]))
        exampleEquitiesOtherRet).map (List.map (fun e => e.qty)) :=
  minBeta_ignores_returns (constSolver 0 (some [10, 20]))
    exampleEquities exampleEquitiesOtherRet
    (List.Forall₂.cons ⟨rfl, rfl, rfl⟩
      (List.Forall₂.cons ⟨rfl, rfl, rfl⟩ List.Forall₂.nil))

end Smartfolio
